import Mathlib

/-
  Verification of the scrape-and-clone backend (src/backend/hello.py).

  Python strings are embedded as lists of characters (`Str`).  Effectful
  collaborators (HTTP transport, HTML parser, browser screenshotter, URL
  joiner, LLM client, filesystem) are embedded as explicit environment
  values/functions supplied to the translated operations, so each endpoint
  body becomes a pure Lean function of its environment and the in-memory
  store.
-/

abbrev Str := List Char

/-- Python `str.replace(pat, rep)` with the scan bounded by a fuel argument:
scans left to right, replacing non-overlapping occurrences of `pat` by `rep`.
Each step consumes one unit of fuel and, for a non-empty pattern, at least one
character, so fuel `s.length` suffices (the `0, s` fallback is then dead). -/
def replaceAllFuel (pat rep : Str) : Nat → Str → Str
  | _, [] => []
  | 0, s => s
  | n + 1, c :: cs =>
    if pat.isPrefixOf (c :: cs) then
      rep ++ replaceAllFuel pat rep n ((c :: cs).drop pat.length)
    else
      c :: replaceAllFuel pat rep n cs

/-- Python `s.replace(pat, rep)`. -/
def replaceAll (pat rep s : Str) : Str :=
  replaceAllFuel pat rep s.length s

/-- The single-character replacement function used by `.replace("/", "_")`
and friends (pointwise form). -/
def replFun (a b : Char) (c : Char) : Char :=
  if c = a then b else c

/-- `s.replace(a, b)` for one-character patterns, as a map. -/
def mapRepl (a b : Char) (s : Str) : Str :=
  s.map (replFun a b)

/-- hello.py line 104: the chained `.replace` calls producing `url_id`
from `request.url` (every occurrence of each pattern is replaced). -/
def scrub (url : Str) : Str :=
  replaceAll "&".toList "_".toList
    (replaceAll "=".toList "_".toList
      (replaceAll "?".toList "_".toList
        (replaceAll ":".toList "_".toList
          (replaceAll ".".toList "_".toList
            (replaceAll "/".toList "_".toList
              (replaceAll "www.".toList "".toList
                (replaceAll "http://".toList "".toList
                  (replaceAll "https://".toList "".toList url))))))))

/-- hello.py lines 104-106: the Identifier Normalizer.  `url_id` is the
scrubbed URL; if it exceeds 100 characters it is truncated to 100 and the
fixed marker `_hash` is appended. -/
def normalize_url_id (url : Str) : Str :=
  if (scrub url).length > 100 then
    (scrub url).take 100 ++ "_hash".toList
  else
    scrub url

/-- The combined one-pass character substitution used when the six
single-character replacements are described as one step. -/
def specialRepl (c : Char) : Char :=
  if c = '/' ∨ c = '.' ∨ c = ':' ∨ c = '?' ∨ c = '=' ∨ c = '&' then '_' else c

/-- Modelled from the words of claim C2 (the spec reading under test):
strip the scheme only when it is a leading prefix, then strip a single
leading `www.`, then replace the six special characters, then truncate
with the `_hash` marker when over 100 characters. -/
def normalize_claimC2 (url : Str) : Str :=
  let s1 := if ("https://".toList).isPrefixOf url then url.drop 8
            else if ("http://".toList).isPrefixOf url then url.drop 7
            else url
  let s2 := if ("www.".toList).isPrefixOf s1 then s1.drop 4 else s1
  let s3 := s2.map specialRepl
  if s3.length > 100 then s3.take 100 ++ "_hash".toList else s3

/-- The amended description of the Identifier Normalizer: replace every
occurrence of `https://`, then `http://`, then `www.` anywhere in the
string with the empty string, then replace each of the six characters
`/ . : ? = &` with an underscore, then truncate-and-mark when the result
exceeds 100 characters. -/
def normalize_amended_spec (url : Str) : Str :=
  let s := replaceAll "www.".toList []
             (replaceAll "http://".toList []
               (replaceAll "https://".toList [] url))
  let t := s.map specialRepl
  if t.length > 100 then t.take 100 ++ "_hash".toList else t

/-- Boolean list membership of a verified prefix check, Python `startswith`. -/
def listStartsWith (p s : Str) : Bool :=
  p.isPrefixOf s

/-- Python `endswith`. -/
def listEndsWith (p s : Str) : Bool :=
  p.isSuffixOf s

/-- Python `str.isspace` on the characters `str.strip()` removes. -/
def pyIsSpace (c : Char) : Bool :=
  c == ' ' || c == '\t' || c == '\n' || c == '\r' || c == '\x0b' || c == '\x0c'

/-- Python `str.strip()`: remove leading and trailing whitespace. -/
def pyStrip (s : Str) : Str :=
  ((s.dropWhile pyIsSpace).reverse.dropWhile pyIsSpace).reverse

/-- Python truthiness of an optional string: `None` and `""` are falsy. -/
def pyTruthy : Option Str → Bool
  | none => false
  | some s => !s.isEmpty

/-- hello.py lines 62-68: the `ScrapedData` record.  `assets` is kept as a
key/value list because the Python field is a plain `Dict[str, List[str]]`. -/
structure ScrapedData where
  id : Str
  url : Str
  title : Str
  html_content : Option Str
  screenshot_path : Option Str
  assets : List (Str × List Str)
deriving DecidableEq

/-- The persisted store: a mapping from normalized id to record, embedded as
an ordered key/value list (Python dicts keep insertion order and hold at most
one value per key). -/
abbrev ScrapeStore := List (Str × ScrapedData)

/-- Python dict membership-respecting lookup: `d[k]` / `k in d`. -/
def storeLookup (store : ScrapeStore) (k : Str) : Option ScrapedData :=
  match store with
  | [] => none
  | (k', v) :: rest => if k' = k then some v else storeLookup rest k

/-- Python dict assignment `d[k] = v`: replace the value at an existing key
in place, otherwise append a new entry. -/
def storeInsert (store : ScrapeStore) (k : Str) (v : ScrapedData) : ScrapeStore :=
  match store with
  | [] => [(k, v)]
  | (k', v') :: rest =>
    if k' = k then (k, v) :: rest else (k', v') :: storeInsert rest k v

/-- The key sequence of the store. -/
def storeKeys (store : ScrapeStore) : List Str :=
  store.map Prod.fst

/-- hello.py lines 86-94, `load_scraped_data`: the file-exists check and the
result of `json.load` (`none` models a `json.JSONDecodeError`) are inputs;
both failure shapes produce the empty store. -/
def load_scraped_data (fileExists : Bool) (parsed : Option ScrapeStore) : ScrapeStore :=
  if fileExists then
    match parsed with
    | some d => d
    | none => []
  else []

/-- The parse result of `BeautifulSoup(html_content, 'html.parser')` that the
scrape path consumes: the optional `<title>` element and the source/href
attribute values of the asset elements, in document order. -/
structure ParsedDoc where
  title : Option Str
  imgSrcs : List Str
  stylesheetHrefs : List Str
  scriptSrcs : List Str
deriving DecidableEq

/-- The outcome of `httpx` fetching `request.url` (lines 112-114): a network
error (`httpx.RequestError`), a non-2xx status surfaced by
`raise_for_status` (`httpx.HTTPStatusError`), or the body text. -/
inductive FetchResult where
  | transportError (msg : Str)
  | statusError (status : Nat) (body : Str)
  | ok (body : Str)
deriving DecidableEq

/-- The effectful collaborators of one `/webscrape` request: the HTTP fetch
outcome, the parser, the per-source URL joiner `(base url).join(src)`
(`none` models a raised exception), and whether the playwright
goto+screenshot block succeeds. -/
structure ScrapeEnv where
  fetch : FetchResult
  parse : Str → Except Str ParsedDoc
  resolveUrl : Str → Str → Option Str
  screenshotOk : Bool

/-- hello.py lines 134-157: one asset-collection loop.  A source starting
with `data:` or `#` is skipped; otherwise the resolver is consulted and a
per-element failure is logged and skipped. -/
def resolveSources (resolve : Str → Option Str) : List Str → List Str
  | [] => []
  | src :: rest =>
    if listStartsWith "data:".toList src || listStartsWith "#".toList src then
      resolveSources resolve rest
    else
      match resolve src with
      | some u => u :: resolveSources resolve rest
      | none => resolveSources resolve rest

/-- hello.py lines 179-186: the `ScrapedData` entry assembled on the success
path of a scrape. -/
def newScrapedEntry (env : ScrapeEnv) (url html : Str) (doc : ParsedDoc) : ScrapedData :=
  { id := normalize_url_id url
    url := url
    title :=
      match doc.title with
      | some t => t
      | none => "Title not found".toList
    html_content := some html
    screenshot_path :=
      if env.screenshotOk then
        some ("/public/screenshots/".toList ++ normalize_url_id url ++ ".png".toList)
      else none
    assets :=
      [("images".toList, resolveSources (env.resolveUrl url) doc.imgSrcs),
       ("stylesheets".toList, resolveSources (env.resolveUrl url) doc.stylesheetHrefs),
       ("scripts".toList, resolveSources (env.resolveUrl url) doc.scriptSrcs)] }

/-- The FastAPI `HTTPException(status_code, detail)` raised by the endpoints. -/
structure HTTPExceptionE where
  status_code : Nat
  detail : Str
deriving DecidableEq

/-- hello.py lines 192-205: the JSON summary returned by a successful scrape. -/
structure ScrapeSummary where
  success : Bool
  url : Str
  title : Str
  id : Str
  html_content_length : Nat
  screenshot_url : Option Str
  images_count : Nat
  stylesheets_count : Nat
  scripts_count : Nat
  links_count : Nat
deriving DecidableEq

/-- hello.py lines 102-220, `scrape_website`: the whole `/webscrape` body.
The store argument is the result of `load_scraped_data` (line 108); the
returned store is the state persisted by `save_scraped_data` (unchanged on
the error paths, which save nothing).  A screenshot failure is caught
locally (lines 171-175): both path variables become `None` and the pipeline
continues; fetch/parse failures fall to the `except` clauses of lines
206-220. -/
def scrape_website (env : ScrapeEnv) (store : ScrapeStore) (url : Str) :
    Except HTTPExceptionE ScrapeSummary × ScrapeStore :=
  match env.fetch with
  | .transportError msg =>
    (.error ⟨500, "An error occurred while requesting ".toList ++ url ++
      ": ".toList ++ msg⟩, store)
  | .statusError st body =>
    (.error ⟨st, "HTTP error ".toList ++ (toString st).toList ++
      " occurred while fetching ".toList ++ url ++ ": ".toList ++ body⟩, store)
  | .ok html =>
    match env.parse html with
    | .error e =>
      (.error ⟨500, "An unexpected error occurred: ".toList ++ e⟩, store)
    | .ok doc =>
      let entry := newScrapedEntry env url html doc
      let store' := storeInsert store (normalize_url_id url) entry
      (.ok { success := true
             url := url
             title := entry.title
             id := normalize_url_id url
             html_content_length := html.length
             screenshot_url := entry.screenshot_path
             images_count := (resolveSources (env.resolveUrl url) doc.imgSrcs).length
             stylesheets_count := (resolveSources (env.resolveUrl url) doc.stylesheetHrefs).length
             scripts_count := (resolveSources (env.resolveUrl url) doc.scriptSrcs).length
             links_count := 0 }, store')

/-- A sequence of `/webscrape` requests run against one store. -/
def runScrapes (reqs : List (ScrapeEnv × Str)) (store : ScrapeStore) : ScrapeStore :=
  reqs.foldl (fun st r => (scrape_website r.1 st r.2).2) store

/-- hello.py line 75-78: the `/clone-website` response body. -/
structure CloneResponse where
  success : Bool
  cloned_html : Option Str
  message : Option Str
deriving DecidableEq

/-- The fixed document-type declaration checked and prepended on
lines 316-318. -/
def doctype : Str :=
  "<!DOCTYPE html>".toList

/-- hello.py lines 311-314: strip a wrapping fenced code block.  Python
slicing `s[7:-3]` / `s[3:-3]` is `(s.drop k).take (s.length - (k + 3))`. -/
def stripFences (s : Str) : Str :=
  if listStartsWith "```html".toList s && listEndsWith "```".toList s then
    pyStrip ((s.drop 7).take (s.length - 10))
  else if listStartsWith "```".toList s && listEndsWith "```".toList s then
    pyStrip ((s.drop 3).take (s.length - 6))
  else s

/-- hello.py lines 311-318: the Clone Response Validator applied to the raw
model output — fence stripping followed by the best-effort doctype repair. -/
def validateClone (raw : Str) : Str :=
  let cloned_html := stripFences raw
  if listStartsWith doctype (pyStrip cloned_html) then cloned_html
  else "<!DOCTYPE html>\n".toList ++ cloned_html

/-- hello.py lines 229-323, `clone_website_with_llm`: the `/clone-website`
body.  `joinCwd` models `os.path.join(os.getcwd(), path.lstrip('/'))`; the
model call outcome is the environment value `llm`.  The boolean result
records whether the model call was reached.  The prompt blocks built on
lines 248-299 only feed the model call and are not materialized here. -/
def clone_website_with_llm (joinCwd : Str → Str) (store : ScrapeStore)
    (llm : Except Str Str) (url_id : Str) :
    Except HTTPExceptionE CloneResponse × Bool :=
  match storeLookup store url_id with
  | none =>
    (.error ⟨404, "Scraped data not found for this URL ID.".toList⟩, false)
  | some data =>
    let html_content := data.html_content
    let actual_screenshot_file_path : Option Str :=
      match data.screenshot_path with
      | some p => if p.isEmpty then none else some (joinCwd p)
      | none => none
    if !pyTruthy html_content && !pyTruthy actual_screenshot_file_path then
      (.error ⟨400, "No HTML content or screenshot available for cloning.".toList⟩, false)
    else
      match llm with
      | .error e =>
        (.error ⟨500, "LLM cloning failed: ".toList ++ e⟩, true)
      | .ok raw =>
        (.ok { success := true, cloned_html := some (validateClone raw), message := none }, true)

/-- A concrete scrape environment whose fetch and parse succeed and whose
screenshot step fails. -/
def envShotFail : ScrapeEnv :=
  { fetch := .ok "<html></html>".toList
    parse := fun _ => .ok { title := none, imgSrcs := [], stylesheetHrefs := [], scriptSrcs := [] }
    resolveUrl := fun _ _ => none
    screenshotOk := false }

/-- A concrete scrape environment whose fetch raises a transport error. -/
def envTransportFail : ScrapeEnv :=
  { fetch := .transportError "boom".toList
    parse := fun _ => .error []
    resolveUrl := fun _ _ => none
    screenshotOk := true }

/-- A stored record carrying neither markup nor a screenshot path. -/
def recNoContent : ScrapedData :=
  { id := "k".toList
    url := "http://k".toList
    title := "t".toList
    html_content := none
    screenshot_path := none
    assets := [] }

theorem toList_slash : "/".toList = ['/'] := rfl

theorem toList_dot : ".".toList = ['.'] := rfl

theorem toList_colon : ":".toList = [':'] := rfl

theorem toList_question : "?".toList = ['?'] := rfl

theorem toList_equals : "=".toList = ['='] := rfl

theorem toList_amp : "&".toList = ['&'] := rfl

theorem toList_underscore : "_".toList = ['_'] := rfl

/-- Membership transfers along a verified boolean list prefix. -/
theorem mem_of_isPrefixOf {p l : Str} (h : p.isPrefixOf l = true) {a : Char}
    (ha : a ∈ p) : a ∈ l := by
  induction p generalizing l with
  | nil => cases ha
  | cons x xs ih =>
    cases l with
    | nil => simp [List.isPrefixOf] at h
    | cons y ys =>
      simp only [List.isPrefixOf, Bool.and_eq_true, beq_iff_eq] at h
      rcases List.mem_cons.1 ha with rfl | ha'
      · exact h.1 ▸ List.mem_cons_self _ _
      · exact List.mem_cons_of_mem _ (ih h.2 ha')

/-- A list is a verified prefix of itself followed by anything. -/
theorem isPrefixOf_append_self (p t : Str) : p.isPrefixOf (p ++ t) = true := by
  induction p with
  | nil => simp [List.isPrefixOf]
  | cons x xs ih => simp [List.isPrefixOf, ih]

/-- `replaceAllFuel` is the identity when some character of the pattern
never occurs in the subject. -/
theorem replaceAllFuel_of_not_mem (pat rep : Str) (a : Char) (ha : a ∈ pat) :
    ∀ (n : Nat) (s : Str), a ∉ s → replaceAllFuel pat rep n s = s := by
  intro n
  induction n with
  | zero => intro s _; cases s <;> rfl
  | succ n ih =>
    intro s hs
    cases s with
    | nil => rfl
    | cons c cs =>
      rw [replaceAllFuel]
      by_cases h : pat.isPrefixOf (c :: cs) = true
      · exact absurd (mem_of_isPrefixOf h ha) hs
      · simp only [h]
        rw [if_neg]
        · rw [ih cs (fun hmem => hs (List.mem_cons_of_mem _ hmem))]
        · simp [h]

/-- `str.replace` is the identity when some character of the pattern never
occurs in the subject. -/
theorem replaceAll_of_not_mem (pat rep s : Str) (a : Char) (ha : a ∈ pat)
    (hs : a ∉ s) : replaceAll pat rep s = s :=
  replaceAllFuel_of_not_mem pat rep a ha s.length s hs

/-- For a one-character pattern, `str.replace` is a character map. -/
theorem replaceAll_single (a b : Char) (s : Str) :
    replaceAll [a] [b] s = mapRepl a b s := by
  unfold replaceAll mapRepl
  have : ∀ (n : Nat) (t : Str), t.length ≤ n →
      replaceAllFuel [a] [b] n t = t.map (replFun a b) := by
    intro n
    induction n with
    | zero =>
      intro t ht
      interval_cases h : t.length
      · cases t
        · rfl
        · simp at h
    | succ n ih =>
      intro t ht
      cases t with
      | nil => rfl
      | cons c cs =>
        rw [replaceAllFuel]
        by_cases h : c = a
        · subst h
          rw [if_pos (by simp [List.isPrefixOf])]
          have hd : ((c :: cs).drop ([c] : Str).length) = cs := rfl
          rw [hd, ih cs (by simpa using ht)]
          simp [replFun]
        · have hac : ¬a = c := fun hac => h hac.symm
          rw [if_neg (by simp [List.isPrefixOf, hac])]
          rw [ih cs (by simpa using ht)]
          simp [replFun, h]
  exact this s.length s (Nat.le_refl _)

theorem mem_mapRepl {c a b : Char} {s : Str} (h : c ∈ mapRepl a b s) :
    c ∈ s ∨ c = b := by
  rcases List.mem_map.1 h with ⟨x, hx, hfx⟩
  unfold replFun at hfx
  by_cases hxa : x = a
  · right; rw [hxa] at hfx; simpa [if_pos rfl] using hfx.symm
  · left; rw [if_neg hxa] at hfx; exact hfx ▸ hx

theorem not_mem_mapRepl_self {a b : Char} (hab : a ≠ b) (s : Str) :
    a ∉ mapRepl a b s := by
  intro h
  rcases List.mem_map.1 h with ⟨x, _, hfx⟩
  unfold replFun at hfx
  by_cases hxa : x = a
  · rw [if_pos hxa] at hfx; exact hab hfx.symm
  · rw [if_neg hxa] at hfx; exact hxa (hfx.symm ▸ rfl)

theorem not_mem_mapRepl_of {c a b : Char} (hcb : c ≠ b) {s : Str}
    (h : c ∉ s) : c ∉ mapRepl a b s := by
  intro hc
  rcases mem_mapRepl hc with h' | h'
  · exact h h'
  · exact hcb h'

theorem mapRepl_id {a b : Char} {s : Str} (h : a ∉ s) : mapRepl a b s = s := by
  unfold mapRepl
  induction s with
  | nil => rfl
  | cons c cs ih =>
    simp only [List.map_cons]
    have hca : c ≠ a := fun hc => h (hc ▸ List.mem_cons_self _ _)
    rw [show replFun a b c = c from if_neg hca,
      ih (fun hm => h (List.mem_cons_of_mem _ hm))]

/-- The chained `.replace` pipeline of line 104, with the six one-character
replacements rewritten as maps. -/
theorem scrub_eq_maps (s : Str) :
    scrub s =
      mapRepl '&' '_' (mapRepl '=' '_' (mapRepl '?' '_' (mapRepl ':' '_'
        (mapRepl '.' '_' (mapRepl '/' '_'
          (replaceAll "www.".toList "".toList
            (replaceAll "http://".toList "".toList
              (replaceAll "https://".toList "".toList s)))))))) := by
  unfold scrub
  simp only [toList_slash, toList_dot, toList_colon, toList_question,
    toList_equals, toList_amp, toList_underscore, replaceAll_single]

/-- No special character survives the scrubbing of line 104. -/
theorem scrub_not_mem (s : Str) :
    '/' ∉ scrub s ∧ '.' ∉ scrub s ∧ ':' ∉ scrub s ∧ '?' ∉ scrub s ∧
      '=' ∉ scrub s ∧ '&' ∉ scrub s := by
  rw [scrub_eq_maps]
  refine ⟨?_, ?_, ?_, ?_, ?_, ?_⟩
  · exact not_mem_mapRepl_of (by decide) (not_mem_mapRepl_of (by decide)
      (not_mem_mapRepl_of (by decide) (not_mem_mapRepl_of (by decide)
        (not_mem_mapRepl_of (by decide) (not_mem_mapRepl_self (by decide) _)))))
  · exact not_mem_mapRepl_of (by decide) (not_mem_mapRepl_of (by decide)
      (not_mem_mapRepl_of (by decide) (not_mem_mapRepl_of (by decide)
        (not_mem_mapRepl_self (by decide) _))))
  · exact not_mem_mapRepl_of (by decide) (not_mem_mapRepl_of (by decide)
      (not_mem_mapRepl_of (by decide) (not_mem_mapRepl_self (by decide) _)))
  · exact not_mem_mapRepl_of (by decide) (not_mem_mapRepl_of (by decide)
      (not_mem_mapRepl_self (by decide) _))
  · exact not_mem_mapRepl_of (by decide) (not_mem_mapRepl_self (by decide) _)
  · exact not_mem_mapRepl_self (by decide) _

/-- Scrubbing is the identity on a string already free of the six special
characters. -/
theorem scrub_id (s : Str) (h1 : '/' ∉ s) (h2 : '.' ∉ s) (h3 : ':' ∉ s)
    (h4 : '?' ∉ s) (h5 : '=' ∉ s) (h6 : '&' ∉ s) : scrub s = s := by
  rw [scrub_eq_maps,
    replaceAll_of_not_mem "https://".toList "".toList s '/' (by decide) h1,
    replaceAll_of_not_mem "http://".toList "".toList s '/' (by decide) h1,
    replaceAll_of_not_mem "www.".toList "".toList s '.' (by decide) h2,
    mapRepl_id h1, mapRepl_id h2, mapRepl_id h3, mapRepl_id h4,
    mapRepl_id h5, mapRepl_id h6]

theorem take_append_exact {a : Str} {n : Nat} (h : a.length = n) (b : Str) :
    (a ++ b).take n = a := by
  subst h
  induction a with
  | nil => rfl
  | cons c cs ih =>
    simp only [List.cons_append, List.length_cons, List.take_succ_cons, ih]

/-- The six chained single-character replacements act pointwise exactly as
the combined substitution. -/
theorem replFun_chain (c : Char) :
    replFun '&' '_' (replFun '=' '_' (replFun '?' '_' (replFun ':' '_'
      (replFun '.' '_' (replFun '/' '_' c))))) = specialRepl c := by
  by_cases h1 : c = '/'
  · subst h1; rfl
  by_cases h2 : c = '.'
  · subst h2; rfl
  by_cases h3 : c = ':'
  · subst h3; rfl
  by_cases h4 : c = '?'
  · subst h4; rfl
  by_cases h5 : c = '='
  · subst h5; rfl
  by_cases h6 : c = '&'
  · subst h6; rfl
  simp [replFun, specialRepl, h1, h2, h3, h4, h5, h6]

/-- The six chained single-character replacements equal one pass of the
combined substitution. -/
theorem mapRepl_chain (s : Str) :
    mapRepl '&' '_' (mapRepl '=' '_' (mapRepl '?' '_' (mapRepl ':' '_'
      (mapRepl '.' '_' (mapRepl '/' '_' s))))) = s.map specialRepl := by
  induction s with
  | nil => rfl
  | cons c cs ih =>
    simp only [mapRepl, List.map_cons] at ih ⊢
    rw [replFun_chain c, ih]

/-- C1: the Identifier Normalizer of lines 104-106 is idempotent — applying
it to its own output (including an output produced through the
100-character truncation-and-`_hash` path) returns that output unchanged. -/
theorem C1_normalizer_idempotent (url : Str) :
    normalize_url_id (normalize_url_id url) = normalize_url_id url := by
  obtain ⟨h1, h2, h3, h4, h5, h6⟩ := scrub_not_mem url
  unfold normalize_url_id
  by_cases hlen : (scrub url).length > 100
  · rw [if_pos hlen]
    set N := (scrub url).take 100 ++ "_hash".toList with hN
    have hmem : ∀ c : Char, c ∉ scrub url → c ∉ "_hash".toList → c ∉ N := by
      intro c hc hh hmemN
      rcases List.mem_append.1 hmemN with h | h
      · exact hc (List.take_subset _ _ h)
      · exact hh h
    have g1 : '/' ∉ N := hmem _ h1 (by decide)
    have g2 : '.' ∉ N := hmem _ h2 (by decide)
    have g3 : ':' ∉ N := hmem _ h3 (by decide)
    have g4 : '?' ∉ N := hmem _ h4 (by decide)
    have g5 : '=' ∉ N := hmem _ h5 (by decide)
    have g6 : '&' ∉ N := hmem _ h6 (by decide)
    rw [scrub_id N g1 g2 g3 g4 g5 g6]
    have hlN : N.length = 105 := by
      rw [hN, List.length_append, List.length_take]
      have hmin : min 100 (scrub url).length = 100 := by omega
      rw [hmin]
      rfl
    rw [if_pos (by omega : N.length > 100)]
    rw [hN]
    have hta : ((scrub url).take 100).length = 100 := by
      rw [List.length_take]; omega
    rw [take_append_exact hta]
  · rw [if_neg hlen, scrub_id (scrub url) h1 h2 h3 h4 h5 h6, if_neg hlen]

/-- C2 counterexample: the code replaces every occurrence of `www.` (and of
the scheme strings), not only a leading one, so `http://a.com/www.b`
normalizes to `a_com_b` while the claimed contract would produce
`a_com_www_b`. -/
theorem C2_counterexample :
    normalize_url_id "http://a.com/www.b".toList = "a_com_b".toList ∧
    normalize_claimC2 "http://a.com/www.b".toList = "a_com_www_b".toList ∧
    ¬normalize_url_id "http://a.com/www.b".toList =
        normalize_claimC2 "http://a.com/www.b".toList := by
  decide

/-- C2 (amended): the normalizer replaces every occurrence of `https://`,
then `http://`, then `www.` anywhere in the URL with the empty string,
replaces each occurrence of the characters / . : ? = & with an underscore,
and exactly when the result exceeds 100 characters truncates it to 100 and
appends the fixed `_hash` marker; `https://www.example.com/a?b=1` maps to
`example_com_a_b_1`. -/
theorem C2_normalizer_contract_amended :
    (∀ url : Str, normalize_url_id url = normalize_amended_spec url) ∧
    normalize_url_id "https://www.example.com/a?b=1".toList =
      "example_com_a_b_1".toList := by
  constructor
  · intro url
    unfold normalize_url_id
    rw [scrub_eq_maps, mapRepl_chain]
    rfl
  · decide

theorem storeLookup_storeInsert_self (store : ScrapeStore) (k : Str) (v : ScrapedData) :
    storeLookup (storeInsert store k v) k = some v := by
  induction store with
  | nil => simp [storeInsert, storeLookup]
  | cons p rest ih =>
    obtain ⟨k', v'⟩ := p
    by_cases h : k' = k
    · subst h; simp [storeInsert, storeLookup]
    · simp [storeInsert, storeLookup, h, ih]

theorem storeLookup_storeInsert_ne (store : ScrapeStore) (k k' : Str)
    (v : ScrapedData) (h : ¬k = k') :
    storeLookup (storeInsert store k v) k' = storeLookup store k' := by
  induction store with
  | nil => simp [storeInsert, storeLookup, h]
  | cons p rest ih =>
    obtain ⟨a, b⟩ := p
    by_cases ha : a = k
    · subst ha; simp [storeInsert, storeLookup, h]
    · by_cases ha' : a = k'
      · subst ha'; simp [storeInsert, storeLookup, ha]
      · simp [storeInsert, storeLookup, ha, ha', ih]

/-- The store after a scrape is either untouched (failure paths) or the old
store with the freshly assembled entry written under the normalized id. -/
theorem scrape_store_eq (env : ScrapeEnv) (store : ScrapeStore) (url : Str) :
    (scrape_website env store url).2 = store ∨
    ∃ html doc, env.fetch = .ok html ∧ env.parse html = .ok doc ∧
      (scrape_website env store url).2 =
        storeInsert store (normalize_url_id url) (newScrapedEntry env url html doc) := by
  cases hf : env.fetch with
  | transportError msg => left; simp [scrape_website, hf]
  | statusError st body => left; simp [scrape_website, hf]
  | ok html =>
    cases hp : env.parse html with
    | error e => left; simp [scrape_website, hf, hp]
    | ok doc => right; exact ⟨html, doc, rfl, hp, by simp [scrape_website, hf, hp]⟩

theorem storeKeys_storeInsert_mem (store : ScrapeStore) (k : Str) (v : ScrapedData)
    (h : k ∈ storeKeys store) :
    storeKeys (storeInsert store k v) = storeKeys store := by
  induction store with
  | nil => simp [storeKeys] at h
  | cons p rest ih =>
    obtain ⟨k', v'⟩ := p
    have hcons : storeKeys ((k', v') :: rest) = k' :: storeKeys rest := rfl
    by_cases hk : k' = k
    · subst hk
      simp only [storeInsert, if_pos rfl]
      rfl
    · rw [hcons] at h
      have h' : k ∈ storeKeys rest := by
        rcases List.mem_cons.1 h with h | h
        · exact absurd h.symm hk
        · exact h
      simp only [storeInsert, if_neg hk]
      have hstep : storeKeys ((k', v') :: storeInsert rest k v) =
          k' :: storeKeys (storeInsert rest k v) := rfl
      rw [hstep, ih h', hcons]

theorem storeKeys_storeInsert_not_mem (store : ScrapeStore) (k : Str) (v : ScrapedData)
    (h : k ∉ storeKeys store) :
    storeKeys (storeInsert store k v) = storeKeys store ++ [k] := by
  induction store with
  | nil => rfl
  | cons p rest ih =>
    obtain ⟨k', v'⟩ := p
    have hcons : storeKeys ((k', v') :: rest) = k' :: storeKeys rest := rfl
    rw [hcons] at h
    have hk : ¬k' = k := fun hkk => h (hkk ▸ List.mem_cons_self _ _)
    have h' : k ∉ storeKeys rest := fun hmem => h (List.mem_cons_of_mem _ hmem)
    simp only [storeInsert, if_neg hk]
    have hstep : storeKeys ((k', v') :: storeInsert rest k v) =
        k' :: storeKeys (storeInsert rest k v) := rfl
    rw [hstep, ih h', hcons, List.cons_append]

theorem nodup_storeKeys_storeInsert (store : ScrapeStore) (k : Str) (v : ScrapedData)
    (h : (storeKeys store).Nodup) :
    (storeKeys (storeInsert store k v)).Nodup := by
  by_cases hk : k ∈ storeKeys store
  · rw [storeKeys_storeInsert_mem store k v hk]; exact h
  · rw [storeKeys_storeInsert_not_mem store k v hk]
    refine List.Nodup.append h (List.nodup_singleton k) ?_
    intro a ha hb
    rw [List.mem_singleton] at hb
    exact hk (hb ▸ ha)

theorem length_storeInsert_mem (store : ScrapeStore) (k : Str) (v : ScrapedData)
    (h : k ∈ storeKeys store) :
    (storeInsert store k v).length = store.length := by
  induction store with
  | nil => simp [storeKeys] at h
  | cons p rest ih =>
    obtain ⟨k', v'⟩ := p
    by_cases hk : k' = k
    · subst hk; simp [storeInsert]
    · have h' : k ∈ storeKeys rest := by
        simp only [storeKeys, List.map_cons, List.mem_cons] at h
        rcases h with h | h
        · exact absurd h.symm hk
        · exact h
      simp [storeInsert, hk, ih h']

/-- C3: when fetch and parse succeed but the screenshot step fails, the
scrape still completes: the response is a success summary (success flag set,
screenshot URL absent), no error is surfaced, and the stored record keeps
the fetched markup while its screenshot path is absent. -/
theorem C3_screenshot_failure_tolerated (env : ScrapeEnv) (store : ScrapeStore)
    (url html : Str) (doc : ParsedDoc)
    (hf : env.fetch = .ok html) (hp : env.parse html = .ok doc)
    (hs : env.screenshotOk = false) :
    ∃ summary : ScrapeSummary,
      (scrape_website env store url).1 = .ok summary ∧
      summary.success = true ∧
      summary.screenshot_url = none ∧
      ∃ entry : ScrapedData,
        storeLookup (scrape_website env store url).2 (normalize_url_id url) = some entry ∧
        entry.html_content = some html ∧
        entry.screenshot_path = none := by
  simp only [scrape_website, hf, hp]
  refine ⟨_, rfl, rfl, ?_, newScrapedEntry env url html doc,
    storeLookup_storeInsert_self _ _ _, rfl, ?_⟩
  · simp [newScrapedEntry, hs]
  · simp [newScrapedEntry, hs]

theorem C3_witness :
    ∃ summary : ScrapeSummary,
      (scrape_website envShotFail [] "http://example.com".toList).1 = .ok summary ∧
      summary.success = true ∧
      summary.screenshot_url = none ∧
      ∃ entry : ScrapedData,
        storeLookup (scrape_website envShotFail [] "http://example.com".toList).2
          (normalize_url_id "http://example.com".toList) = some entry ∧
        entry.html_content = some "<html></html>".toList ∧
        entry.screenshot_path = none :=
  C3_screenshot_failure_tolerated envShotFail [] "http://example.com".toList
    "<html></html>".toList ⟨none, [], [], []⟩ rfl rfl rfl

/-- C4: a transport error, a non-2xx HTTP-status error, or a parse error
surfaces an `HTTPException` to the caller and leaves the store exactly as it
was — nothing is written or persisted on these paths. -/
theorem C4_failure_paths_leave_store (env : ScrapeEnv) (store : ScrapeStore) (url : Str)
    (h : (∃ msg, env.fetch = .transportError msg) ∨
         (∃ st body, env.fetch = .statusError st body) ∨
         (∃ html e, env.fetch = .ok html ∧ env.parse html = .error e)) :
    (∃ err, (scrape_website env store url).1 = .error err) ∧
    (scrape_website env store url).2 = store := by
  rcases h with ⟨msg, hf⟩ | ⟨st, body, hf⟩ | ⟨html, e, hf, hp⟩
  · refine ⟨?_, ?_⟩
    · simp only [scrape_website, hf]
      exact ⟨_, rfl⟩
    · simp [scrape_website, hf]
  · refine ⟨?_, ?_⟩
    · simp only [scrape_website, hf]
      exact ⟨_, rfl⟩
    · simp [scrape_website, hf]
  · refine ⟨?_, ?_⟩
    · simp only [scrape_website, hf, hp]
      exact ⟨_, rfl⟩
    · simp [scrape_website, hf, hp]

theorem C4_witness :
    (∃ err, (scrape_website envTransportFail [] "http://x.com".toList).1 = .error err) ∧
    (scrape_website envTransportFail [] "http://x.com".toList).2 = [] :=
  C4_failure_paths_leave_store envTransportFail [] "http://x.com".toList
    (Or.inl ⟨"boom".toList, rfl⟩)

/-- C8: starting from a store with pairwise-distinct ids, any sequence of
scrapes keeps the ids pairwise distinct (at most one record per normalized
id, never a second entry); re-scraping a URL whose normalized id is already
present does not grow the store; and on a successful scrape the record found
under the normalized id is exactly the freshly assembled entry (wholesale
replacement). -/
theorem C8_store_one_record_per_id (env : ScrapeEnv) (store : ScrapeStore) (url : Str)
    (hn : (storeKeys store).Nodup) :
    (∀ reqs : List (ScrapeEnv × Str), (storeKeys (runScrapes reqs store)).Nodup) ∧
    (normalize_url_id url ∈ storeKeys store →
      ((scrape_website env store url).2).length = store.length) ∧
    (∀ html doc, env.fetch = .ok html → env.parse html = .ok doc →
      storeLookup (scrape_website env store url).2 (normalize_url_id url) =
        some (newScrapedEntry env url html doc)) := by
  refine ⟨?_, ?_, ?_⟩
  · have main : ∀ (reqs : List (ScrapeEnv × Str)) (st : ScrapeStore),
        (storeKeys st).Nodup → (storeKeys (runScrapes reqs st)).Nodup := by
      intro reqs
      induction reqs with
      | nil => intro st h; exact h
      | cons r rs ih =>
        intro st h
        have hstep : (storeKeys (scrape_website r.1 st r.2).2).Nodup := by
          rcases scrape_store_eq r.1 st r.2 with heq | ⟨html, doc, _, _, heq⟩
          · rw [heq]; exact h
          · rw [heq]; exact nodup_storeKeys_storeInsert _ _ _ h
        have hrun : runScrapes (r :: rs) st =
            runScrapes rs (scrape_website r.1 st r.2).2 := rfl
        rw [hrun]
        exact ih _ hstep
    exact fun reqs => main reqs store hn
  · intro hmem
    rcases scrape_store_eq env store url with heq | ⟨html, doc, _, _, heq⟩
    · rw [heq]
    · rw [heq]; exact length_storeInsert_mem _ _ _ hmem
  · intro html doc hf hp
    simp only [scrape_website, hf, hp]
    exact storeLookup_storeInsert_self _ _ _

theorem C8_witness :
    storeLookup (scrape_website envShotFail [] "http://a.com".toList).2
        (normalize_url_id "http://a.com".toList) =
      some (newScrapedEntry envShotFail "http://a.com".toList
        "<html></html>".toList ⟨none, [], [], []⟩) :=
  (C8_store_one_record_per_id envShotFail [] "http://a.com".toList List.nodup_nil).2.2
    "<html></html>".toList ⟨none, [], [], []⟩ rfl rfl

/-- After a scrape, each record in the store is either the untouched prior
record under that key or carries exactly the three asset categories.  This
covers the overwrite path: writing under an already-present key replaces
the old record, and the looked-up record is the freshly assembled one. -/
theorem scrape_lookup_cases (env : ScrapeEnv) (store : ScrapeStore)
    (url k : Str) (e : ScrapedData)
    (h : storeLookup (scrape_website env store url).2 k = some e) :
    storeLookup store k = some e ∨
      e.assets.map Prod.fst =
        ["images".toList, "stylesheets".toList, "scripts".toList] := by
  rcases scrape_store_eq env store url with heq | ⟨html, doc, hf, hp, heq⟩
  · rw [heq] at h
    exact Or.inl h
  · rw [heq] at h
    by_cases hk : normalize_url_id url = k
    · subst hk
      rw [storeLookup_storeInsert_self] at h
      have he := Option.some.inj h
      subst he
      exact Or.inr rfl
    · rw [storeLookup_storeInsert_ne _ _ _ _ hk] at h
      exact Or.inl h

/-- C10: every record a scrape writes — whether under a fresh id or
overwriting an existing one — carries an assets mapping whose keys are
exactly `images`, `stylesheets`, `scripts`, in that order: after any
scrape, a looked-up record is either the untouched prior record or has
exactly the three categories, and over any sequence of scrapes a store all
of whose records have the three categories never gains a record with a
missing or extra category. -/
theorem C10_assets_exact_categories (env : ScrapeEnv) (store : ScrapeStore)
    (url : Str) :
    (∀ (k : Str) (e : ScrapedData),
      storeLookup (scrape_website env store url).2 k = some e →
      storeLookup store k = some e ∨
        e.assets.map Prod.fst =
          ["images".toList, "stylesheets".toList, "scripts".toList]) ∧
    (∀ reqs : List (ScrapeEnv × Str),
      (∀ (k : Str) (e : ScrapedData), storeLookup store k = some e →
        e.assets.map Prod.fst =
          ["images".toList, "stylesheets".toList, "scripts".toList]) →
      ∀ (k : Str) (e : ScrapedData),
        storeLookup (runScrapes reqs store) k = some e →
        e.assets.map Prod.fst =
          ["images".toList, "stylesheets".toList, "scripts".toList]) := by
  constructor
  · exact fun k e h => scrape_lookup_cases env store url k e h
  · intro reqs
    induction reqs generalizing store with
    | nil => intro hinv k e h; exact hinv k e h
    | cons r rs ih =>
      intro hinv k e h
      have hrun : runScrapes (r :: rs) store =
          runScrapes rs (scrape_website r.1 store r.2).2 := rfl
      rw [hrun] at h
      refine ih _ ?_ k e h
      intro k' e' h'
      rcases scrape_lookup_cases r.1 store r.2 k' e' h' with hprev | hcats
      · exact hinv k' e' hprev
      · exact hcats

theorem C10_witness :
    storeLookup [(normalize_url_id "http://a.com".toList, recNoContent)]
        (normalize_url_id "http://a.com".toList) =
      some (newScrapedEntry envShotFail "http://a.com".toList
        "<html></html>".toList ⟨none, [], [], []⟩) ∨
    (newScrapedEntry envShotFail "http://a.com".toList "<html></html>".toList
        ⟨none, [], [], []⟩).assets.map Prod.fst =
      ["images".toList, "stylesheets".toList, "scripts".toList] :=
  (C10_assets_exact_categories envShotFail
      [(normalize_url_id "http://a.com".toList, recNoContent)]
      "http://a.com".toList).1
    (normalize_url_id "http://a.com".toList)
    (newScrapedEntry envShotFail "http://a.com".toList "<html></html>".toList
      ⟨none, [], [], []⟩)
    (by decide)

/-- C7: the asset-collection loops never emit a resolved URL for a source
value beginning with `data:` or `#` — every emitted URL comes from a
non-skipped source, and a skipped element contributes nothing to the
resulting list. -/
theorem C7_resolver_skips_inline_sources (resolve : Str → Option Str) (srcs : List Str) :
    (∀ u ∈ resolveSources resolve srcs, ∃ src, src ∈ srcs ∧
        listStartsWith "data:".toList src = false ∧
        listStartsWith "#".toList src = false ∧
        resolve src = some u) ∧
    (∀ (pre post : List Str) (src : Str),
        (listStartsWith "data:".toList src || listStartsWith "#".toList src) = true →
        resolveSources resolve (pre ++ src :: post) =
          resolveSources resolve (pre ++ post)) := by
  constructor
  · induction srcs with
    | nil =>
      intro u hu
      rw [resolveSources] at hu
      cases hu
    | cons s rest ih =>
      intro u hu
      rw [resolveSources] at hu
      by_cases hskip : (listStartsWith "data:".toList s ||
          listStartsWith "#".toList s) = true
      · rw [if_pos hskip] at hu
        obtain ⟨src, hsrc, h1, h2, h3⟩ := ih u hu
        exact ⟨src, List.mem_cons_of_mem _ hsrc, h1, h2, h3⟩
      · rw [if_neg hskip] at hu
        rw [Bool.or_eq_true, not_or] at hskip
        obtain ⟨ha, hb⟩ := hskip
        have ha' : listStartsWith "data:".toList s = false :=
          Bool.eq_false_iff.2 ha
        have hb' : listStartsWith "#".toList s = false :=
          Bool.eq_false_iff.2 hb
        cases hres : resolve s with
        | none =>
          rw [hres] at hu
          obtain ⟨src, hsrc, h1, h2, h3⟩ := ih u hu
          exact ⟨src, List.mem_cons_of_mem _ hsrc, h1, h2, h3⟩
        | some w =>
          rw [hres] at hu
          rcases List.mem_cons.1 hu with rfl | hu'
          · exact ⟨s, List.mem_cons_self _ _, ha', hb', hres⟩
          · obtain ⟨src, hsrc, h1, h2, h3⟩ := ih u hu'
            exact ⟨src, List.mem_cons_of_mem _ hsrc, h1, h2, h3⟩
  · intro pre post src hsk
    induction pre with
    | nil =>
      simp only [List.nil_append]
      rw [resolveSources, if_pos hsk]
    | cons p ps ih =>
      simp only [List.cons_append]
      rw [resolveSources, resolveSources]
      by_cases hp : (listStartsWith "data:".toList p ||
          listStartsWith "#".toList p) = true
      · rw [if_pos hp, if_pos hp, ih]
      · rw [if_neg hp, if_neg hp]
        cases hrp : resolve p <;> simp only [ih]

theorem C7_witness :
    resolveSources some (["data:image/png;base64,x".toList] ++ ["a.png".toList]) =
      resolveSources some ([] ++ ["a.png".toList]) :=
  (C7_resolver_skips_inline_sources some
      (["data:image/png;base64,x".toList] ++ ["a.png".toList])).2
    [] ["a.png".toList] "data:image/png;base64,x".toList (by decide)

/-- C5: the clone endpoint rejects an id absent from the store with a 404
before any model call, and rejects a stored record whose `html_content` and
`screenshot_path` are both absent with a 400 before any model call. -/
theorem C5_clone_rejects_before_model_call (joinCwd : Str → Str) (store : ScrapeStore)
    (llm : Except Str Str) (url_id : Str) :
    (storeLookup store url_id = none →
      clone_website_with_llm joinCwd store llm url_id =
        (.error ⟨404, "Scraped data not found for this URL ID.".toList⟩, false)) ∧
    (∀ data : ScrapedData, storeLookup store url_id = some data →
      data.html_content = none → data.screenshot_path = none →
      clone_website_with_llm joinCwd store llm url_id =
        (.error ⟨400, "No HTML content or screenshot available for cloning.".toList⟩,
          false)) := by
  constructor
  · intro h
    simp [clone_website_with_llm, h]
  · intro data h hhtml hshot
    simp [clone_website_with_llm, h, hhtml, hshot, pyTruthy]

theorem C5_witness :
    clone_website_with_llm id [] (.ok []) "k".toList =
      (.error ⟨404, "Scraped data not found for this URL ID.".toList⟩, false) ∧
    clone_website_with_llm id [("k".toList, recNoContent)] (.ok []) "k".toList =
      (.error ⟨400, "No HTML content or screenshot available for cloning.".toList⟩,
        false) :=
  ⟨(C5_clone_rejects_before_model_call id [] (.ok []) "k".toList).1 rfl,
   (C5_clone_rejects_before_model_call id [("k".toList, recNoContent)]
      (.ok []) "k".toList).2 recNoContent (by decide) rfl rfl⟩

/-- C9: loading the store never fails — an absent backing file yields the
empty store, and an existing file whose contents fail to parse as JSON also
yields the empty store instead of raising. -/
theorem C9_loader_never_fails (parsed : Option ScrapeStore) (d : ScrapeStore) :
    load_scraped_data false parsed = [] ∧
    load_scraped_data true none = [] ∧
    load_scraped_data true (some d) = d :=
  ⟨rfl, rfl, rfl⟩

theorem dropWhile_append_nonspace {p : Char → Bool} {y w : Str} {c : Char}
    (hc : p c = false) :
    (y ++ c :: w).dropWhile p = y.dropWhile p ++ c :: w := by
  induction y with
  | nil => simp [List.dropWhile_cons, hc]
  | cons d ds ih =>
    by_cases hd : p d = true
    · simp [List.dropWhile_cons, hd, ih]
    · have hd' : p d = false := Bool.eq_false_iff.2 hd
      simp [List.dropWhile_cons, hd']

theorem drop_append_exact {a : Str} {n : Nat} (h : a.length = n) (b : Str) :
    (a ++ b).drop n = b := by
  subst h
  induction a with
  | nil => rfl
  | cons c cs ih => simp only [List.cons_append, List.length_cons, List.drop_succ_cons]; exact ih

/-- Stripping surrounding whitespace from a string that begins with the
doctype-plus-newline block leaves the doctype as a prefix: the front strip
stops at `<` and the rear strip cannot cross the non-whitespace `>`. -/
theorem doctype_prefix_pyStrip (u : Str) :
    listStartsWith doctype (pyStrip ("<!DOCTYPE html>\n".toList ++ u)) = true := by
  unfold pyStrip listStartsWith
  have hfront : ("<!DOCTYPE html>\n".toList ++ u).dropWhile pyIsSpace =
      "<!DOCTYPE html>\n".toList ++ u := by
    have hx : ("<!DOCTYPE html>\n".toList ++ u) =
        '<' :: ("!DOCTYPE html>\n".toList ++ u) := rfl
    rw [hx, List.dropWhile_cons, if_neg (by decide)]
  rw [hfront]
  have hrev : ("<!DOCTYPE html>\n".toList ++ u).reverse =
      (u.reverse ++ ['\n']) ++ ('>' :: "lmth EPYTCOD!<".toList) := by
    rw [List.reverse_append,
      show ("<!DOCTYPE html>\n".toList).reverse =
        '\n' :: ('>' :: "lmth EPYTCOD!<".toList) from rfl]
    simp
  rw [hrev, dropWhile_append_nonspace (by decide : pyIsSpace '>' = false),
    List.reverse_append,
    show ('>' :: "lmth EPYTCOD!<".toList).reverse = doctype from rfl]
  exact isPrefixOf_append_self doctype _

/-- C6 counterexample: for an input carrying one leading space before the
declaration, the validator returns its input unchanged, and the returned
string does not begin with the document-type declaration. -/
theorem C6_counterexample :
    listStartsWith doctype
      (validateClone " <!DOCTYPE html><html></html>".toList) = false := by
  decide

/-- C6 (amended): the Clone Response Validator never fails and returns a
string that begins with the standard document-type declaration after
discarding surrounding whitespace; when the text (after fence stripping)
does not already begin with the declaration up to leading whitespace, the
declaration is prepended exactly once at the very front; and a document
wrapped in an ```html fenced block has its fence markers and surrounding
whitespace stripped. -/
theorem C6_validator_contract_amended :
    (∀ raw : Str, listStartsWith doctype (pyStrip (validateClone raw)) = true) ∧
    (∀ raw : Str, listStartsWith doctype (pyStrip (stripFences raw)) = false →
      validateClone raw = "<!DOCTYPE html>\n".toList ++ stripFences raw) ∧
    (∀ body : Str,
      stripFences ("```html".toList ++ body ++ "```".toList) = pyStrip body) := by
  refine ⟨?_, ?_, ?_⟩
  · intro raw
    simp only [validateClone]
    by_cases h : listStartsWith doctype (pyStrip (stripFences raw)) = true
    · rw [if_pos h]
      exact h
    · rw [if_neg h]
      exact doctype_prefix_pyStrip (stripFences raw)
  · intro raw h
    simp only [validateClone]
    rw [if_neg (by simp [h])]
  · intro body
    have hstart : listStartsWith "```html".toList
        ("```html".toList ++ body ++ "```".toList) = true := by
      rw [List.append_assoc]
      exact isPrefixOf_append_self _ _
    have hsuffix : listEndsWith "```".toList
        ("```html".toList ++ body ++ "```".toList) = true := by
      simp only [listEndsWith, List.isSuffixOf]
      rw [List.reverse_append]
      exact isPrefixOf_append_self _ _
    unfold stripFences
    rw [if_pos (by rw [hstart, hsuffix]; rfl)]
    have hdrop : (("```html".toList ++ body ++ "```".toList).drop 7) =
        body ++ "```".toList := by
      rw [List.append_assoc,
        show (7 : Nat) = ("```html".toList : Str).length from rfl]
      exact drop_append_exact rfl _
    have hlen : ("```html".toList ++ body ++ "```".toList).length - 10 =
        body.length := by
      simp only [List.length_append,
        show ("```html".toList : Str).length = 7 from rfl,
        show ("```".toList : Str).length = 3 from rfl]
      omega
    rw [hdrop, hlen, take_append_exact rfl]

theorem C6_amended_witness :
    validateClone "<p>x</p>".toList =
      "<!DOCTYPE html>\n".toList ++ stripFences "<p>x</p>".toList :=
  C6_validator_contract_amended.2.1 "<p>x</p>".toList (by decide)
